import Mathlib

/-!
Verification of the persona-panel orchestration workflow (`run.py`) against its
natural-language specification.  The Python source is embedded shallowly:

* parsed YAML values become the inductive `YVal` (strings, sequences, mappings
  with string keys — the shapes the persona files use);
* Python exceptions become `Except` errors (`PyErr` for lookup/sampling errors,
  `CompErr` for completion-service failures);
* the remote completion client becomes a function
  `CompletionRequest → Except CompErr String` supplied as a parameter;
* the pseudo-random choices of `random.sample` become an explicit `List Nat`
  parameter: at each draw the `(r mod remaining)`-th remaining element is taken,
  which realises exactly the "k distinct elements, any order" contract;
* Python `dict` insertion keeps first-insertion order and overwrites the value
  on an existing key, modelled by `dictInsert` on association lists.
-/

namespace TestPersonas

/-- A parsed YAML value as produced by `yaml.safe_load` on a persona file.
The persona files in this repository contain only strings, sequences and
string-keyed mappings, so the embedding's value universe is restricted to
those three shapes. -/
inductive YVal where
  | s : String → YVal
  | list : List YVal → YVal
  | map : List (String × YVal) → YVal

/-- Python-level errors that the embedded code can raise. -/
inductive PyErr where
  | keyError : String → PyErr
  | typeError : PyErr
  | valueError : PyErr
deriving DecidableEq, Repr

/-- Python `str()` of a non-string parsed value, as an f-string would render it
(containers render via their repr).  Only string fields occur in the theorems
below, so this rendering never reaches a statement; it is kept total and
structurally faithful (quoted strings, bracketed sequences, braced mappings). -/
def pyReprStr : YVal → String
  | .s v => "'" ++ v ++ "'"
  | .list vs => "[" ++ String.intercalate ", " (vs.attach.map (fun x => pyReprStr x.1)) ++ "]"
  | .map kvs => "\x7b" ++ String.intercalate ", "
      (kvs.attach.map (fun kv => "'" ++ kv.1.1 ++ "': " ++ pyReprStr kv.1.2)) ++ "\x7d"
decreasing_by
  · have h := List.sizeOf_lt_of_mem x.2
    simp only [YVal.list.sizeOf_spec]
    omega
  · have h := List.sizeOf_lt_of_mem kv.2
    have h2 : sizeOf kv.1.2 < sizeOf kv.1 := by
      obtain ⟨⟨a, b⟩, hm⟩ := kv
      simp
    simp only [YVal.map.sizeOf_spec]
    omega

/-- Python `str()` as interpolated by an f-string: a string renders as itself,
anything else via its repr. -/
def pyStr : YVal → String
  | .s v => v
  | v => pyReprStr v

/-- Python subscript `value[key]` with a string key: succeeds on a mapping
containing the key, raises `KeyError` on a mapping without it, `TypeError`
on a non-mapping. -/
def dictGet (v : YVal) (k : String) : Except PyErr YVal :=
  match v with
  | .map kvs =>
    match kvs.lookup k with
    | some x => .ok x
    | none => .error (.keyError k)
  | _ => .error .typeError

/-- Elements of a Python list coerced to strings for concatenation/`join`:
each element must itself be a string, otherwise `TypeError`. -/
def strList : List YVal → Except PyErr (List String)
  | [] => .ok []
  | .s t :: rest => (strList rest).map (fun ts => t :: ts)
  | _ :: _ => .error .typeError

/-- Iterating a Python value and using each element in string
concatenation/`join` (`'- ' + obj`, `', '.join(...)`): a list requires string
elements, iterating a dict yields its (string) keys, iterating a string yields
its one-character substrings; anything else is not iterable. -/
def iterStrs : YVal → Except PyErr (List String)
  | .s v => .ok (v.data.map (fun c => String.mk [c]))
  | .list vs => strList vs
  | .map kvs => .ok (kvs.map (fun kv => kv.1))

/-- Embedding of `format_persona_for_prompt` (run.py lines 39-53).  The debug log on entry
evaluates `persona['name']` first; the f-string then reads the fields in
template order.  Objectives are prefixed with `"- "` and joined with single
spaces; trader types are joined with `", "`. -/
def format_persona_for_prompt (persona : YVal) : Except PyErr String := do
  let nameV ← dictGet persona "name"
  let backgroundV ← dictGet persona "persona"
  let objectives ← dictGet persona "objectives" >>= iterStrs
  let roleV ← dictGet persona "role"
  let traderTypes ← dictGet persona "trader_type" >>= iterStrs
  pure ("You are " ++ pyStr nameV ++ ".\n\nBackground and Personality:\n"
    ++ pyStr backgroundV
    ++ "\n\nYour objectives are:\n"
    ++ String.intercalate " " (objectives.map (fun o => "- " ++ o))
    ++ "\n\nYou are a " ++ pyStr roleV
    ++ " with the following trader characteristics:\n"
    ++ String.intercalate ", " traderTypes
    ++ "\n\nPlease analyze the question from your unique perspective, considering your background, objectives, and personality traits.")

/-- One chat message of a completion request. -/
structure ChatMessage where
  role : String
  content : String
deriving DecidableEq, Repr

/-- One call to `client.chat.completions.create`: the fixed model identifier,
the system/user messages, and the sampling temperature. -/
structure CompletionRequest where
  model : String
  messages : List ChatMessage
  temperature : Rat
deriving DecidableEq, Repr

/-- A failure of the remote completion service. -/
inductive CompErr where
  | completionError : String → CompErr
deriving DecidableEq, Repr

/-- The completion client: each request either returns generated text or
fails.  The theorems below quantify over all clients. -/
abbrev Client := CompletionRequest → Except CompErr String

/-- Errors surfacing from `run`: either a Python-level error or a completion
failure. -/
inductive RunErr where
  | py : PyErr → RunErr
  | comp : CompErr → RunErr
deriving DecidableEq, Repr

/-- System prompt of the independent round (run.py lines 59-61). -/
def individual_system_prompt : String :=
  "You are a market participant with specific personality traits, background, and objectives. \nAnalyze the given question from your persona's perspective, considering their unique characteristics, experience, and goals.\nProvide a detailed response that reflects your persona's viewpoint, knowledge level, and decision-making style."

/-- User prompt of the independent round (run.py lines 63-68), as a function
of the already-formatted persona block and the question. -/
def individual_user_prompt (formatted question : String) : String :=
  "\n" ++ formatted ++ "\n\nQuestion: " ++ question
    ++ "\n\nProvide your analysis and opinion on this question, staying true to your persona's characteristics."

/-- The independent-round request: model "gpt-4", temperature 0.7
(run.py lines 71-78). -/
def ind_req (question formatted : String) : CompletionRequest :=
  ⟨"gpt-4",
   [⟨"system", individual_system_prompt⟩,
    ⟨"user", individual_user_prompt formatted question⟩],
   7 / 10⟩

/-- Builds the independent-round request for a persona; fails with the
formatter's error when the persona record is malformed. -/
def individual_request (persona : YVal) (question : String) :
    Except PyErr CompletionRequest := do
  let formatted ← format_persona_for_prompt persona
  pure (ind_req question formatted)

/-- Embedding of `get_individual_response` (run.py lines 55-83).  The entry log evaluates
`persona['name']` (uncaught), the prompt is built, and the client is called;
the local try/except re-raises the client's failure unchanged. -/
def get_individual_response (client : Client) (persona : YVal)
    (question : String) : Except RunErr String := do
  let _ ← (dictGet persona "name").mapError RunErr.py
  let req ← (individual_request persona question).mapError RunErr.py
  (client req).mapError RunErr.comp

/-- System prompt of the collective round (run.py lines 89-91). -/
def collective_system_prompt : String :=
  "You are a market participant in a group discussion. \nConsider both your unique perspective and the insights shared by others when forming your final opinion.\nMaintain your persona's characteristics while engaging with others' viewpoints."

/-- User prompt of the collective round (run.py lines 93-101): the peer
responses are rendered as `'-' + '\n-'.join(other_responses)`. -/
def collective_user_prompt (formatted question : String)
    (other_responses : List String) : String :=
  "\n" ++ formatted ++ "\n\nQuestion: " ++ question
    ++ "\n\nOther participants have shared these perspectives:\n"
    ++ ("-" ++ String.intercalate "\n-" other_responses)
    ++ "\n\nConsidering these viewpoints and your own characteristics, provide your final analysis and opinion."

/-- The collective-round request: model "gpt-4o-mini", temperature 0.6
(run.py lines 104-111). -/
def coll_req (question formatted : String) (others : List String) :
    CompletionRequest :=
  ⟨"gpt-4o-mini",
   [⟨"system", collective_system_prompt⟩,
    ⟨"user", collective_user_prompt formatted question others⟩],
   6 / 10⟩

/-- Builds the collective-round request for a persona and peer context. -/
def collective_request (persona : YVal) (question : String)
    (others : List String) : Except PyErr CompletionRequest := do
  let formatted ← format_persona_for_prompt persona
  pure (coll_req question formatted others)

/-- Embedding of `get_collective_response` (run.py lines 85-116); same shape as the
individual variant, with the peer responses appended to the user prompt. -/
def get_collective_response (client : Client) (persona : YVal)
    (question : String) (others : List String) : Except RunErr String := do
  let _ ← (dictGet persona "name").mapError RunErr.py
  let req ← (collective_request persona question others).mapError RunErr.py
  (client req).mapError RunErr.comp

/-- Python dict assignment `d[k] = v` on an insertion-ordered dict: an
existing key keeps its position and gets the new value, a fresh key is
appended. -/
def dictInsert (d : List (String × String)) (k : String) (v : String) :
    List (String × String) :=
  if d.any (fun kv => kv.1 == k) then
    d.map (fun kv => if kv.1 == k then (kv.1, v) else kv)
  else d ++ [(k, v)]

/-- Value `persona['name']` used as a dict key (run.py lines 137 and 154): Python
requires a hashable key, and in this value universe only strings are
hashable, so a sequence- or mapping-valued name raises `TypeError`. -/
def nameKey (persona : YVal) : Except PyErr String := do
  match ← dictGet persona "name" with
  | .s s => pure s
  | _ => .error .typeError

/-- The independent phase (run.py lines 134-137): one completion per persona
in load order, results stored keyed by persona name; any failure aborts. -/
def individual_phase (client : Client) (question : String) :
    List YVal → List (String × String) → Except RunErr (List (String × String))
  | [], acc => .ok acc
  | persona :: rest, acc => do
    let response ← get_individual_response client persona question
    let key ← (nameKey persona).mapError RunErr.py
    individual_phase client question rest (dictInsert acc key response)

/-- Python `str == other` where `other` may be any value: `False` unless both
are strings with the same content. -/
def yvalEqStr : YVal → String → Bool
  | .s t, s => t == s
  | _, _ => false

/-- The peer-context comprehension (run.py lines 145-146):
`[resp for name, resp in individual_responses.items() if name != persona['name']]`.
The guard is evaluated per entry, so on an empty dict `persona['name']` is
never read. -/
def other_responses (individual : List (String × String)) (persona : YVal) :
    Except PyErr (List String) :=
  if individual.isEmpty then .ok []
  else do
    let n ← dictGet persona "name"
    pure ((individual.filter (fun kv => !(yvalEqStr n kv.1))).map (fun kv => kv.2))

/-- The collective phase (run.py lines 142-154): for each persona, gather the
other personas' independent responses, call the collective completion, store
the result keyed by persona name; any failure aborts. -/
def collective_phase (client : Client) (question : String)
    (individual : List (String × String)) :
    List YVal → List (String × String) → Except RunErr (List (String × String))
  | [], acc => .ok acc
  | persona :: rest, acc => do
    let others ← (other_responses individual persona).mapError RunErr.py
    let response ← get_collective_response client persona question others
    let key ← (nameKey persona).mapError RunErr.py
    collective_phase client question individual rest (dictInsert acc key response)

/-- A persona file as found by glob: its path and the outcome of
`open` + `yaml.safe_load` (an error message, or the parsed value). -/
structure YamlFile where
  path : String
  parsed : Except String YVal

/-- The personas directory: whether it is accessible (exists and is
readable) and, when it is, its `*.yaml` entries in glob order. -/
structure PersonaDir where
  accessible : Bool
  files : List YamlFile

/-- Embedding of `Path(personas_dir).glob('*.yaml')` (run.py line 19): pathlib returns an
empty iterator — it does not raise — when the directory is missing (the
selector checks `is_dir` first) or unreadable (`PermissionError` is swallowed
inside the selector). -/
def globYaml (d : PersonaDir) : List YamlFile :=
  if d.accessible then d.files else []

/-- The draws of `random.sample` modelled with an explicit randomness list:
at each step the `(r mod remaining)`-th remaining element is taken and
removed, so any without-replacement selection is realised by some `rand`. -/
def sampleAux {α : Type} : Nat → List Nat → List α → List α
  | 0, _, _ => []
  | _ + 1, _, [] => []
  | k + 1, rs, x :: xs =>
    (x :: xs).get ⟨rs.headD 0 % (x :: xs).length, Nat.mod_lt _ (Nat.succ_pos _)⟩ ::
      sampleAux k (rs.drop 1) ((x :: xs).eraseIdx (rs.headD 0 % (x :: xs).length))

/-- Embedding of `random.sample(population, k)` (run.py line 24): raises `ValueError` when
`k` is negative or larger than the population, otherwise returns `k` distinct
elements. -/
def random_sample {α : Type} (population : List α) (k : Int) (rand : List Nat) :
    Except PyErr (List α) :=
  if k < 0 ∨ (population.length : Int) < k then .error .valueError
  else .ok (sampleAux k.toNat rand population)

/-- Lines 18-24 of run.py: glob the directory and sample
`min(num_personas, len(yaml_files))` of the found files. -/
def selected_files (d : PersonaDir) (num_personas : Int) (rand : List Nat) :
    Except PyErr (List YamlFile) :=
  let yaml_files := globYaml d
  random_sample yaml_files (min num_personas (yaml_files.length : Int)) rand

/-- One iteration of the load loop (run.py lines 26-34).  A parse failure is
caught and the file skipped.  A successfully parsed value is appended BEFORE
the debug log reads its `'name'`, and that lookup's failure is caught by the
same handler, so the value stays in the list whether or not it has a name. -/
def load_step (acc : List YVal) (file : YamlFile) : List YVal :=
  match file.parsed with
  | .error _ => acc
  | .ok v =>
    let acc2 := acc ++ [v]
    match dictGet v "name" with
    | .error _ => acc2
    | .ok _ => acc2

/-- Embedding of `load_personas` (run.py lines 14-37). -/
def load_personas (d : PersonaDir) (num_personas : Int) (rand : List Nat) :
    Except PyErr (List YVal) := do
  let selected ← selected_files d num_personas rand
  pure (selected.foldl load_step [])

/-- The validated run input (schemas.py): the question and the requested
persona count. -/
structure InputSchema where
  question : String
  num_personas : Int

/-- The run output: the two response mappings, keyed by persona name in
insertion order. -/
structure RunResult where
  individual_responses : List (String × String)
  collective_responses : List (String × String)
deriving DecidableEq, Repr

/-- Embedding of `run` (run.py lines 118-164): load personas, independent phase,
collective phase, assemble the result.  The personas directory is taken
already resolved — lines 127-129 only adjust the directory path string. -/
def run (client : Client) (inputs : InputSchema) (d : PersonaDir)
    (rand : List Nat) : Except RunErr RunResult := do
  let personas ← (load_personas d inputs.num_personas rand).mapError RunErr.py
  let individual ← individual_phase client inputs.question personas []
  let collective ← collective_phase client inputs.question individual personas []
  pure ⟨individual, collective⟩

/-- A client on which every completion call succeeds, returning `g r` for
request `r`.  Quantifying over `g` quantifies over all such clients. -/
def pureClient (g : CompletionRequest → String) : Client :=
  fun r => .ok (g r)

/-- The independent-responses dict produced by a fully successful
independent phase, for personas named by `nm` and formatted by `fm`. -/
def expected_individual (g : CompletionRequest → String) (question : String)
    (nm fm : YVal → String) (personas : List YVal) : List (String × String) :=
  personas.map (fun p => (nm p, g (ind_req question (fm p))))

/-- The peer context supplied to persona `p` in the collective phase: the
independent responses of exactly the personas whose name differs from
`p`'s, in load order. -/
def expected_others (g : CompletionRequest → String) (question : String)
    (nm fm : YVal → String) (personas : List YVal) (p : YVal) : List String :=
  (personas.filter (fun q => !(nm p == nm q))).map
    (fun q => g (ind_req question (fm q)))

/-- The collective-responses dict produced by a fully successful collective
phase. -/
def expected_collective (g : CompletionRequest → String) (question : String)
    (nm fm : YVal → String) (personas : List YVal) : List (String × String) :=
  personas.map (fun p =>
    (nm p, g (coll_req question (fm p) (expected_others g question nm fm personas p))))

/-- The fixed output template of the formatter as a function of the field
values: objectives are rendered as "- "-prefixed fragments joined by single
spaces on one line, trader-type tags are comma-joined. -/
def render_template (nme background : String) (objectives : List String)
    (role : String) (traderTypes : List String) : String :=
  "You are " ++ nme ++ ".\n\nBackground and Personality:\n" ++ background
    ++ "\n\nYour objectives are:\n"
    ++ String.intercalate " " (objectives.map (fun o => "- " ++ o))
    ++ "\n\nYou are a " ++ role
    ++ " with the following trader characteristics:\n"
    ++ String.intercalate ", " traderTypes
    ++ "\n\nPlease analyze the question from your unique perspective, considering your background, objectives, and personality traits."

/-- The template as the specification words it — "objectives each rendered
as a bulleted line", i.e. newline-joined bullets — used to compare the
spec's description against the code's actual output. -/
def render_spec_bulleted (nme background : String) (objectives : List String)
    (role : String) (traderTypes : List String) : String :=
  "You are " ++ nme ++ ".\n\nBackground and Personality:\n" ++ background
    ++ "\n\nYour objectives are:\n"
    ++ String.intercalate "\n" (objectives.map (fun o => "- " ++ o))
    ++ "\n\nYou are a " ++ role
    ++ " with the following trader characteristics:\n"
    ++ String.intercalate ", " traderTypes
    ++ "\n\nPlease analyze the question from your unique perspective, considering your background, objectives, and personality traits."

/-! Concrete fixtures used by witnesses and counterexamples. -/

/-- A well-formed persona record. -/
def pAlice : YVal := .map [("name", .s "Alice"), ("persona", .s "Alice bg"),
  ("objectives", .list [.s "obj one", .s "obj two"]), ("role", .s "day trader"),
  ("trader_type", .list [.s "momentum", .s "contrarian"])]

/-- A second well-formed persona record with a different name. -/
def pBob : YVal := .map [("name", .s "Bob"), ("persona", .s "Bob bg"),
  ("objectives", .list [.s "obj B"]), ("role", .s "quant"),
  ("trader_type", .list [.s "systematic"])]

/-- Persona file containing `pAlice`. -/
def fAlice : YamlFile := ⟨"alice.yaml", .ok pAlice⟩

/-- Persona file containing `pBob`. -/
def fBob : YamlFile := ⟨"bob.yaml", .ok pBob⟩

/-- A directory with two well-formed persona files. -/
def twoDir : PersonaDir := ⟨true, [fAlice, fBob]⟩

/-- A well-formed persona named "Dup". -/
def pDup1 : YVal := .map [("name", .s "Dup"), ("persona", .s "first bg"),
  ("objectives", .list [.s "o"]), ("role", .s "r"), ("trader_type", .list [.s "t"])]

/-- A different well-formed persona also named "Dup". -/
def pDup2 : YVal := .map [("name", .s "Dup"), ("persona", .s "second bg"),
  ("objectives", .list [.s "o"]), ("role", .s "r"), ("trader_type", .list [.s "t"])]

/-- A directory with two distinct persona files whose records share one name. -/
def dupDir : PersonaDir := ⟨true, [⟨"d1.yaml", .ok pDup1⟩, ⟨"d2.yaml", .ok pDup2⟩]⟩

/-- The record of a file that parses fine but has no 'name' key. -/
def pNameless : YVal := .map [("persona", .s "some background")]

/-- A persona file that parses to a record without a 'name' key. -/
def fNameless : YamlFile := ⟨"nameless.yaml", .ok pNameless⟩

/-- A persona file whose YAML fails to parse. -/
def fBad : YamlFile := ⟨"bad.yaml", .error "could not parse"⟩

/-- A directory with two good files and one malformed file between them. -/
def threeDir : PersonaDir := ⟨true, [fAlice, fBad, fBob]⟩

/-- A persona with two objectives, exercising the objective join. -/
def pTwoObjs : YVal := .map [("name", .s "N"), ("persona", .s "B"),
  ("objectives", .list [.s "o1", .s "o2"]), ("role", .s "R"),
  ("trader_type", .list [.s "T"])]

/-- A response function making every completion call succeed with "resp". -/
def gConst : CompletionRequest → String := fun _ => "resp"

/-- A client whose every completion call fails. -/
def errClient : Client := fun _ => .error (.completionError "boom")

/-- The name a well-formed persona record carries (used to instantiate the
`nm` parameter of the general theorems at concrete inputs). -/
def nameOf : YVal → String := fun p =>
  match dictGet p "name" with
  | .ok (.s s) => s
  | _ => ""

/-- The formatted prompt of a persona record (used to instantiate the `fm`
parameter of the general theorems at concrete inputs). -/
def fmtOf : YVal → String := fun p =>
  (format_persona_for_prompt p).toOption.getD ""

/-! Helper lemmas about the embedded operations. -/

/-- The load loop keeps exactly the values of the files that parse, in
selection order. -/
theorem foldl_load_step :
    ∀ (files : List YamlFile) (acc : List YVal),
      files.foldl load_step acc
        = acc ++ files.filterMap (fun f => f.parsed.toOption)
  | [], acc => by simp
  | f :: rest, acc => by
    rw [List.foldl_cons, foldl_load_step rest]
    match hp : f.parsed with
    | .error e => simp [load_step, hp, Except.toOption]
    | .ok v =>
      match hn : dictGet v "name" with
      | .error e => simp [load_step, hp, hn, Except.toOption]
      | .ok w => simp [load_step, hp, hn, Except.toOption]

/-- A sample drawn by `sampleAux` has `min k (population size)` elements. -/
theorem sampleAux_length {α : Type} :
    ∀ (k : Nat) (rs : List Nat) (pop : List α),
      (sampleAux k rs pop).length = min k pop.length
  | 0, _, _ => by simp [sampleAux]
  | _ + 1, _, [] => by simp [sampleAux]
  | k + 1, rs, x :: xs => by
    have hlt : rs.headD 0 % (x :: xs).length < (x :: xs).length :=
      Nat.mod_lt _ (Nat.succ_pos _)
    have hstep : (sampleAux (k + 1) rs (x :: xs)).length
        = (sampleAux k (rs.drop 1)
            ((x :: xs).eraseIdx (rs.headD 0 % (x :: xs).length))).length + 1 := by
      rw [sampleAux]
      rfl
    have ih := sampleAux_length k (rs.drop 1)
      ((x :: xs).eraseIdx (rs.headD 0 % (x :: xs).length))
    have hlen := List.length_eraseIdx_add_one hlt
    omega

/-- Removing the drawn element and putting it back in front is a
permutation of the population. -/
theorem get_cons_eraseIdx_perm {α : Type} (l : List α) (i : Nat)
    (h : i < l.length) : List.Perm (l.get ⟨i, h⟩ :: l.eraseIdx i) l := by
  have h1 : l.get ⟨i, h⟩ :: l.eraseIdx i
      = l[i] :: (l.take i ++ l.drop (i + 1)) := by
    rw [List.eraseIdx_eq_take_drop_succ, List.get_eq_getElem]
  have h2 : l.take i ++ l[i] :: l.drop (i + 1) = l := by
    rw [← List.drop_eq_getElem_cons h, List.take_append_drop]
  rw [h1]
  have h3 : List.Perm (l.take i ++ l[i] :: l.drop (i + 1)) l := by
    rw [h2]
  exact List.perm_middle.symm.trans h3

/-- A sample is a sub-permutation of the population: it selects distinct
positions without replacement. -/
theorem sampleAux_subperm {α : Type} :
    ∀ (k : Nat) (rs : List Nat) (pop : List α),
      List.Subperm (sampleAux k rs pop) pop
  | 0, _, _ => by
    simp only [sampleAux]
    exact List.nil_subperm
  | _ + 1, _, [] => by
    simp only [sampleAux]
    exact List.nil_subperm
  | k + 1, rs, x :: xs => by
    rw [sampleAux]
    have hlt : rs.headD 0 % (x :: xs).length < (x :: xs).length :=
      Nat.mod_lt _ (Nat.succ_pos _)
    have ih := sampleAux_subperm k (rs.drop 1)
      ((x :: xs).eraseIdx (rs.headD 0 % (x :: xs).length))
    exact ((List.subperm_cons _).mpr ih).trans
      (get_cons_eraseIdx_perm (x :: xs) _ hlt).subperm

/-- Sub-permutations inherit freedom from duplicates. -/
theorem subperm_nodup {α : Type} {l₁ l₂ : List α} (h : List.Subperm l₁ l₂)
    (h₂ : l₂.Nodup) : l₁.Nodup := by
  obtain ⟨l, hp, hs⟩ := h
  exact hp.nodup_iff.mp (h₂.sublist hs)

/-- Sub-permutations are preserved by mapping. -/
theorem subperm_map {α β : Type} (f : α → β) {l₁ l₂ : List α}
    (h : List.Subperm l₁ l₂) : List.Subperm (l₁.map f) (l₂.map f) := by
  obtain ⟨l, hp, hs⟩ := h
  exact ⟨l.map f, hp.map f, hs.map f⟩

/-- When every projection succeeds, collecting the successful projections
loses nothing. -/
theorem filterMap_toOption_length {α β γ : Type} (proj : α → Except γ β) :
    ∀ l : List α, (∀ f ∈ l, (proj f).isOk) →
      (l.filterMap (fun f => (proj f).toOption)).length = l.length
  | [], _ => rfl
  | f :: rest, h => by
    have hf := h f (List.mem_cons_self _ _)
    have ih := filterMap_toOption_length proj rest
      (fun g hg => h g (List.mem_cons_of_mem _ hg))
    match hp : proj f with
    | .ok v =>
      have hcons : (f :: rest).filterMap (fun g => (proj g).toOption)
          = v :: rest.filterMap (fun g => (proj g).toOption) := by
        simp only [List.filterMap_cons, hp, Except.toOption]
      rw [hcons, List.length_cons, List.length_cons, ih]
    | .error e =>
      rw [hp] at hf
      simp [Except.isOk, Except.toBool] at hf

/-- Folding dict insertions whose keys are fresh for the accumulator and
pairwise distinct just appends the entries in order. -/
theorem foldl_dictInsert_fresh {α : Type} (key val : α → String) :
    ∀ (l : List α) (acc : List (String × String)),
      (∀ a ∈ l, ∀ kv ∈ acc, kv.1 ≠ key a) →
      (l.map key).Nodup →
      l.foldl (fun d a => dictInsert d (key a) (val a)) acc
        = acc ++ l.map (fun a => (key a, val a))
  | [], acc, _, _ => by simp
  | a :: rest, acc, hfresh, hnd => by
    have hany : acc.any (fun kv => kv.1 == key a) = false := by
      rw [List.any_eq_false]
      intro kv hkv
      simpa using hfresh a (List.mem_cons_self _ _) kv hkv
    have hstep : dictInsert acc (key a) (val a) = acc ++ [(key a, val a)] := by
      simp only [dictInsert, hany]
      simp
    have hnd' : (rest.map key).Nodup := (List.nodup_cons.mp (by simpa using hnd)).2
    have hnotmem : key a ∉ rest.map key := (List.nodup_cons.mp (by simpa using hnd)).1
    have hfresh' : ∀ b ∈ rest, ∀ kv ∈ acc ++ [(key a, val a)], kv.1 ≠ key b := by
      intro b hb kv hkv
      rcases List.mem_append.mp hkv with hkv | hkv
      · exact hfresh b (List.mem_cons_of_mem _ hb) kv hkv
      · have hkv2 : kv = (key a, val a) := by simpa using hkv
        subst hkv2
        intro hcontra
        have hab : key a = key b := hcontra
        apply hnotmem
        rw [hab]
        exact List.mem_map_of_mem key hb
    rw [List.foldl_cons, hstep,
      foldl_dictInsert_fresh key val rest (acc ++ [(key a, val a)]) hfresh' hnd']
    simp

/-- Filtering after mapping is mapping after filtering the composed
predicate. -/
theorem filter_of_map {α β : Type} (f : α → β) (pr : β → Bool) :
    ∀ l : List α, (l.map f).filter pr = (l.filter (fun a => pr (f a))).map f
  | [] => rfl
  | a :: rest => by
    by_cases h : pr (f a) <;>
      simp [List.filter_cons, h, filter_of_map f pr rest]

/-- With a never-failing client and well-formed personas, the independent
phase folds one dict insertion per persona over the accumulator. -/
theorem individual_phase_ok (g : CompletionRequest → String) (question : String)
    (nm fm : YVal → String) :
    ∀ (ps : List YVal) (acc : List (String × String)),
      (∀ p ∈ ps, dictGet p "name" = .ok (.s (nm p))) →
      (∀ p ∈ ps, format_persona_for_prompt p = .ok (fm p)) →
      individual_phase (pureClient g) question ps acc
        = .ok (ps.foldl
            (fun d p => dictInsert d (nm p) (g (ind_req question (fm p)))) acc)
  | [], acc, _, _ => rfl
  | p :: rest, acc, hname, hfmt => by
    have hn := hname p (List.mem_cons_self _ _)
    have hf := hfmt p (List.mem_cons_self _ _)
    have ih := individual_phase_ok g question nm fm rest
      (dictInsert acc (nm p) (g (ind_req question (fm p))))
      (fun q hq => hname q (List.mem_cons_of_mem _ hq))
      (fun q hq => hfmt q (List.mem_cons_of_mem _ hq))
    simp only [individual_phase, get_individual_response, individual_request,
      nameKey, pureClient, hn, hf, Except.mapError, Except.map, bind,
      Except.bind, pure, Except.pure, List.foldl_cons]
    exact ih

/-- On the dict produced by a successful independent phase, the peer-context
comprehension for a named persona keeps exactly the other-named entries. -/
theorem other_responses_expected (g : CompletionRequest → String)
    (question : String) (nm fm : YVal → String) (personas : List YVal)
    (p : YVal) (hn : dictGet p "name" = .ok (.s (nm p))) :
    other_responses (expected_individual g question nm fm personas) p
      = .ok (expected_others g question nm fm personas p) := by
  match personas with
  | [] => rfl
  | q :: qs =>
    have hne : (expected_individual g question nm fm (q :: qs)).isEmpty = false := by
      simp [expected_individual]
    simp only [other_responses, hne, Bool.false_eq_true, if_false, hn, bind,
      Except.bind, pure, Except.pure]
    rw [expected_individual, filter_of_map, List.map_map]
    rfl

/-- With a never-failing client and well-formed personas, the collective
phase folds one dict insertion per persona over the accumulator, each
using the peer context drawn from the independent dict. -/
theorem collective_phase_ok (g : CompletionRequest → String) (question : String)
    (nm fm : YVal → String) (personas : List YVal) :
    ∀ (ps : List YVal) (acc : List (String × String)),
      (∀ p ∈ ps, dictGet p "name" = .ok (.s (nm p))) →
      (∀ p ∈ ps, format_persona_for_prompt p = .ok (fm p)) →
      collective_phase (pureClient g) question
          (expected_individual g question nm fm personas) ps acc
        = .ok (ps.foldl
            (fun d p => dictInsert d (nm p)
              (g (coll_req question (fm p)
                (expected_others g question nm fm personas p)))) acc)
  | [], acc, _, _ => rfl
  | p :: rest, acc, hname, hfmt => by
    have hn := hname p (List.mem_cons_self _ _)
    have hf := hfmt p (List.mem_cons_self _ _)
    have hot := other_responses_expected g question nm fm personas p hn
    have ih := collective_phase_ok g question nm fm personas rest
      (dictInsert acc (nm p)
        (g (coll_req question (fm p) (expected_others g question nm fm personas p))))
      (fun q hq => hname q (List.mem_cons_of_mem _ hq))
      (fun q hq => hfmt q (List.mem_cons_of_mem _ hq))
    simp only [collective_phase, get_collective_response, collective_request,
      nameKey, pureClient, hn, hf, hot, Except.mapError, Except.map, bind,
      Except.bind, pure, Except.pure, List.foldl_cons]
    exact ih

/-- With a never-failing client, personas all bearing string names and
formatting successfully, and pairwise-distinct names, `run` succeeds and
returns exactly the two expected dicts. -/
theorem run_ok_char (g : CompletionRequest → String) (inputs : InputSchema)
    (d : PersonaDir) (rand : List Nat) (personas : List YVal)
    (nm fm : YVal → String)
    (hload : load_personas d inputs.num_personas rand = .ok personas)
    (hname : ∀ p ∈ personas, dictGet p "name" = .ok (.s (nm p)))
    (hfmt : ∀ p ∈ personas, format_persona_for_prompt p = .ok (fm p))
    (hnodup : (personas.map nm).Nodup) :
    run (pureClient g) inputs d rand
      = .ok ⟨expected_individual g inputs.question nm fm personas,
             expected_collective g inputs.question nm fm personas⟩ := by
  have h1 := individual_phase_ok g inputs.question nm fm personas [] hname hfmt
  have h2 := collective_phase_ok g inputs.question nm fm personas personas [] hname hfmt
  have hfold1 : personas.foldl
      (fun d p => dictInsert d (nm p) (g (ind_req inputs.question (fm p)))) []
      = expected_individual g inputs.question nm fm personas := by
    rw [foldl_dictInsert_fresh nm (fun p => g (ind_req inputs.question (fm p)))
      personas [] (by intro a _ kv hkv; cases hkv) hnodup]
    rfl
  have hfold2 : personas.foldl
      (fun d p => dictInsert d (nm p)
        (g (coll_req inputs.question (fm p)
          (expected_others g inputs.question nm fm personas p)))) []
      = expected_collective g inputs.question nm fm personas := by
    rw [foldl_dictInsert_fresh nm
      (fun p => g (coll_req inputs.question (fm p)
        (expected_others g inputs.question nm fm personas p)))
      personas [] (by intro a _ kv hkv; cases hkv) hnodup]
    rfl
  rw [hfold1] at h1
  rw [hfold2] at h2
  simp only [run, hload, h1, h2, Except.mapError, bind, Except.bind, pure,
    Except.pure]

/-- Sampling from an empty population yields the empty list for every
sample size. -/
theorem sampleAux_nil {α : Type} (k : Nat) (rs : List Nat) :
    sampleAux k rs ([] : List α) = [] := by
  cases k <;> simp [sampleAux]

/-- When the glob finds no files and the requested count is non-negative,
the load returns an empty list without error. -/
theorem load_personas_no_files (d : PersonaDir) (n : Int) (rand : List Nat)
    (hglob : globYaml d = []) (hn : 0 ≤ n) :
    load_personas d n rand = .ok [] := by
  have hcond : ¬(min n ((([] : List YamlFile).length : Int)) < 0 ∨
      ((([] : List YamlFile).length : Int)
        < min n (([] : List YamlFile).length : Int))) := by
    simp only [List.length_nil]
    omega
  simp only [load_personas, selected_files, random_sample, hglob, if_neg hcond,
    sampleAux_nil, List.foldl_nil, bind, Except.bind, pure, Except.pure]

/-- Coercing a list of strings back out of the value universe. -/
theorem strList_map_s : ∀ l : List String, strList (l.map YVal.s) = .ok l
  | [] => rfl
  | t :: rest => by
    simp only [List.map_cons, strList, strList_map_s rest, Except.map]

/-- The formatter fails with the name lookup's error first: the entry debug
log evaluates `persona['name']` before anything else. -/
theorem format_name_error (p : YVal) (e : PyErr)
    (hname : dictGet p "name" = .error e) :
    format_persona_for_prompt p = .error e := by
  simp only [format_persona_for_prompt, hname, bind, Except.bind]

/-- In a list whose names are pairwise distinct, filtering out the entries
sharing a member's name removes exactly that member. -/
theorem filter_ne_length {α : Type} (nm : α → String) :
    ∀ (l : List α) (p : α), (l.map nm).Nodup → p ∈ l →
      (l.filter (fun q => !(nm p == nm q))).length = l.length - 1
  | a :: rest, p, hnd, hp => by
    rw [List.map_cons, List.nodup_cons] at hnd
    rcases List.mem_cons.mp hp with heq | hmem
    · subst heq
      have hdrop : (!(nm p == nm p)) = false := by simp
      have hkeep : rest.filter (fun q => !(nm p == nm q)) = rest := by
        rw [List.filter_eq_self]
        intro b hb
        have hne : nm p ≠ nm b := by
          intro hcontra
          apply hnd.1
          rw [hcontra]
          exact List.mem_map_of_mem nm hb
        simp [hne]
      simp [List.filter_cons, hdrop, hkeep]
    · have hne : nm p ≠ nm a := by
        intro hcontra
        apply hnd.1
        rw [← hcontra]
        exact List.mem_map_of_mem nm hmem
      have hkeep : (!(nm p == nm a)) = true := by simp [hne]
      have ih := filter_ne_length nm rest p hnd.2 hmem
      have hpos : 0 < rest.length := List.length_pos.mpr (by
        intro hcontra
        rw [hcontra] at hmem
        cases hmem)
      simp only [List.filter_cons, hkeep, if_pos, List.length_cons, ih]
      omega

/-- If the loop body succeeded for every earlier persona and the completion
call fails for the current one, the independent phase surfaces exactly that
error. -/
theorem individual_phase_error (client : Client) (question : String)
    (p : YVal) (post : List YVal) (ce : CompErr)
    (hfail : get_individual_response client p question = .error (.comp ce)) :
    ∀ (pre : List YVal) (acc : List (String × String)),
      (∀ q ∈ pre, (get_individual_response client q question).isOk
        ∧ (nameKey q).isOk) →
      individual_phase client question (pre ++ p :: post) acc
        = .error (.comp ce)
  | [], acc, _ => by
    simp only [List.nil_append, individual_phase, hfail, bind, Except.bind]
  | q :: rest, acc, hpre => by
    obtain ⟨hok, hnk⟩ := hpre q (List.mem_cons_self _ _)
    match hr : get_individual_response client q question with
    | .error e =>
      rw [hr] at hok
      simp [Except.isOk, Except.toBool] at hok
    | .ok resp =>
      match hk : nameKey q with
      | .error e =>
        rw [hk] at hnk
        simp [Except.isOk, Except.toBool] at hnk
      | .ok key =>
        have ih := individual_phase_error client question p post ce hfail rest
          (dictInsert acc key resp)
          (fun r hrm => hpre r (List.mem_cons_of_mem _ hrm))
        simp only [List.cons_append, individual_phase, hr, hk,
          Except.mapError, bind, Except.bind]
        exact ih

/-! The claims. -/

/-- C10: `load_personas` requires a non-negative requested count.  For every
negative `num_personas` the sampling step receives the negative size
`min(num_personas, available)` and raises `ValueError`, so no persona
sequence is returned; the error branch of sampling is unreachable exactly
when `num_personas ≥ 0`. -/
theorem negative_count_raises (d : PersonaDir) (n : Int) (hn : n < 0)
    (rand : List Nat) : load_personas d n rand = .error .valueError := by
  have hcond : min n ((globYaml d).length : Int) < 0 ∨
      (((globYaml d).length : Int) < min n ((globYaml d).length : Int)) := by
    left
    omega
  simp only [load_personas, selected_files, random_sample, if_pos hcond, bind,
    Except.bind]

/-- Witness for C10 at a concrete directory and the count -1. -/
theorem negative_count_raises_witness :
    load_personas twoDir (-1) [0] = .error .valueError :=
  negative_count_raises twoDir (-1) (by decide) [0]

/-- C7 counterexample: the persona directory is inaccessible (pathlib's glob
finds nothing), yet `load_personas` returns the empty sequence — it does
not fail; no NotFoundError (or any error) is raised.  Indeed run.py raises
no directory error anywhere: `Path.glob` yields an empty iterator for a
missing directory, and the embedding has no NotFoundError value at all. -/
theorem missing_dir_cex :
    load_personas ⟨false, [fAlice]⟩ 1 [0] = .ok [] := rfl

/-- C7 (amended): when the persona directory is inaccessible, the glob
yields no entries, and for a non-negative requested count `load_personas`
returns an empty sequence — the same outcome as an empty directory — rather
than failing with NotFoundError. -/
theorem missing_dir_returns_empty (files : List YamlFile) (n : Int)
    (hn : 0 ≤ n) (rand : List Nat) :
    load_personas ⟨false, files⟩ n rand = .ok [] :=
  load_personas_no_files ⟨false, files⟩ n rand rfl hn

/-- Witness for the amended C7 at a concrete non-empty file list. -/
theorem missing_dir_returns_empty_witness :
    load_personas ⟨false, [fAlice, fBob]⟩ 2 [1, 0] = .ok [] :=
  missing_dir_returns_empty [fAlice, fBob] 2 (by decide) [1, 0]

/-- C4 counterexample: with zero persona files available the aggregator does
NOT fail with `EmptyPersonaSetError` — no such error exists anywhere in
run.py — instead `run` returns a `RunResult` whose two mappings are both
empty. -/
theorem empty_dir_cex :
    run (pureClient gConst) ⟨"q", 3⟩ ⟨true, []⟩ [] = .ok ⟨[], []⟩ := rfl

/-- C4 (amended): when zero persona files are available, `load` returns an
empty sequence rather than an error — that half of the claim holds — but
the aggregator then proceeds and returns a `RunResult` with two empty
response mappings instead of failing with `EmptyPersonaSetError`. -/
theorem empty_dir_load_and_run (client : Client) (question : String)
    (n : Int) (hn : 0 ≤ n) (rand : List Nat) :
    load_personas ⟨true, []⟩ n rand = .ok [] ∧
    run client ⟨question, n⟩ ⟨true, []⟩ rand = .ok ⟨[], []⟩ := by
  have hload : load_personas ⟨true, []⟩ n rand = .ok [] :=
    load_personas_no_files ⟨true, []⟩ n rand rfl hn
  refine ⟨hload, ?_⟩
  simp only [run, hload, Except.mapError, bind, Except.bind, individual_phase,
    collective_phase, pure, Except.pure]

/-- Witness for the amended C4 at count 3 and an always-succeeding client. -/
theorem empty_dir_load_and_run_witness :
    load_personas ⟨true, []⟩ 3 [] = .ok [] ∧
    run (pureClient gConst) ⟨"q", 3⟩ ⟨true, []⟩ [] = .ok ⟨[], []⟩ :=
  empty_dir_load_and_run (pureClient gConst) "q" 3 (by decide) []

/-- C3: if the independent-phase completion call fails for some loaded
persona — every earlier persona's loop iteration having succeeded — the
whole run surfaces exactly that error to the caller and returns no
`RunResult` (so no partial result and no collective mapping exists).  The
hypotheses constrain the client only on independent-phase calls; its
behavior on collective-phase requests (model "gpt-4o-mini") is arbitrary,
yet the run's outcome is fully determined — the collective phase is never
entered. -/
theorem individual_failure_aborts_run (client : Client) (inputs : InputSchema)
    (d : PersonaDir) (rand : List Nat) (pre post : List YVal) (p : YVal)
    (ce : CompErr)
    (hload : load_personas d inputs.num_personas rand = .ok (pre ++ p :: post))
    (hpre : ∀ q ∈ pre, (get_individual_response client q inputs.question).isOk
      ∧ (nameKey q).isOk)
    (hfail : get_individual_response client p inputs.question
      = .error (.comp ce)) :
    run client inputs d rand = .error (.comp ce) := by
  have hphase := individual_phase_error client inputs.question p post ce hfail
    pre [] hpre
  simp only [run, hload, hphase, Except.mapError, bind, Except.bind]

/-- Witness for C3: two personas load; the completion call fails already on
the first, and the run surfaces that very error — in particular the second
persona and the whole collective phase are never reached. -/
theorem individual_failure_aborts_run_witness :
    run errClient ⟨"q", 2⟩ twoDir [0, 0]
      = .error (.comp (.completionError "boom")) :=
  individual_failure_aborts_run errClient ⟨"q", 2⟩ twoDir [0, 0] [] [pBob]
    pAlice (.completionError "boom") rfl (by intro q hq; cases hq) rfl

/-- C5: for every directory and requested count with count ≤ available
files (all files well-formed), the selection samples without replacement —
the selected files bear pairwise-distinct paths, so no source file is
loaded twice — and the loaded persona list has size exactly
min(count, available) = count. -/
theorem load_sample_without_replacement (d : PersonaDir) (count : Nat)
    (rand : List Nat)
    (hnodup : ((globYaml d).map YamlFile.path).Nodup)
    (hcount : count ≤ (globYaml d).length)
    (hparse : ∀ f ∈ globYaml d, f.parsed.isOk) :
    selected_files d (count : Int) rand
      = .ok (sampleAux count rand (globYaml d)) ∧
    ((sampleAux count rand (globYaml d)).map YamlFile.path).Nodup ∧
    (sampleAux count rand (globYaml d)).length
      = min count (globYaml d).length ∧
    load_personas d (count : Int) rand
      = .ok ((sampleAux count rand (globYaml d)).filterMap
          (fun f => f.parsed.toOption)) ∧
    ((sampleAux count rand (globYaml d)).filterMap
        (fun f => f.parsed.toOption)).length
      = min count (globYaml d).length := by
  have hcond : ¬(min (count : Int) ((globYaml d).length : Int) < 0 ∨
      (((globYaml d).length : Int)
        < min (count : Int) ((globYaml d).length : Int))) := by
    omega
  have htonat : (min (count : Int) ((globYaml d).length : Int)).toNat = count := by
    omega
  have hsel : selected_files d (count : Int) rand
      = .ok (sampleAux count rand (globYaml d)) := by
    simp only [selected_files, random_sample, if_neg hcond, htonat]
  have hsub := sampleAux_subperm count rand (globYaml d)
  have hmem : ∀ f ∈ sampleAux count rand (globYaml d), f.parsed.isOk :=
    fun f hf => hparse f (hsub.subset hf)
  refine ⟨hsel, subperm_nodup (subperm_map YamlFile.path hsub) hnodup,
    sampleAux_length count rand (globYaml d), ?_, ?_⟩
  · simp only [load_personas, hsel, bind, Except.bind, foldl_load_step,
      List.nil_append, pure, Except.pure]
  · rw [filterMap_toOption_length YamlFile.parsed _ hmem,
      sampleAux_length count rand (globYaml d)]

/-- Witness for C5: one of two well-formed files is requested; the selected
file list is duplicate-free and exactly one persona loads. -/
theorem load_sample_without_replacement_witness :
    selected_files twoDir ((1 : Nat) : Int) [0]
      = .ok (sampleAux 1 [0] (globYaml twoDir)) ∧
    ((sampleAux 1 [0] (globYaml twoDir)).map YamlFile.path).Nodup ∧
    (sampleAux 1 [0] (globYaml twoDir)).length
      = min 1 (globYaml twoDir).length ∧
    load_personas twoDir ((1 : Nat) : Int) [0]
      = .ok ((sampleAux 1 [0] (globYaml twoDir)).filterMap
          (fun f => f.parsed.toOption)) ∧
    ((sampleAux 1 [0] (globYaml twoDir)).filterMap
        (fun f => f.parsed.toOption)).length
      = min 1 (globYaml twoDir).length :=
  load_sample_without_replacement twoDir 1 [0] (by decide) (by decide)
    (by intro f hf; fin_cases hf <;> rfl)

/-- C6: when exactly one selected persona file is malformed (its parse
raises) and every other selected file parses, load recovers locally: the
bad file is skipped and the parsed values of all remaining selected files
are returned in selection order — one fewer than selected — and the run
then proceeds normally with this smaller persona set instead of aborting. -/
theorem malformed_file_skipped (g : CompletionRequest → String)
    (inputs : InputSchema) (d : PersonaDir) (rand : List Nat)
    (pre post : List YamlFile) (bad : YamlFile) (msg : String)
    (nm fm : YVal → String)
    (hsel : selected_files d inputs.num_personas rand
      = .ok (pre ++ bad :: post))
    (hbad : bad.parsed = .error msg)
    (hgood : ∀ f ∈ pre ++ post, f.parsed.isOk)
    (hname : ∀ p ∈ (pre ++ post).filterMap (fun f => f.parsed.toOption),
      dictGet p "name" = .ok (.s (nm p)))
    (hfmt : ∀ p ∈ (pre ++ post).filterMap (fun f => f.parsed.toOption),
      format_persona_for_prompt p = .ok (fm p))
    (hnodupN : (((pre ++ post).filterMap
        (fun f => f.parsed.toOption)).map nm).Nodup) :
    load_personas d inputs.num_personas rand
      = .ok ((pre ++ post).filterMap (fun f => f.parsed.toOption)) ∧
    ((pre ++ post).filterMap (fun f => f.parsed.toOption)).length
      = (pre ++ bad :: post).length - 1 ∧
    run (pureClient g) inputs d rand
      = .ok ⟨expected_individual g inputs.question nm fm
               ((pre ++ post).filterMap (fun f => f.parsed.toOption)),
             expected_collective g inputs.question nm fm
               ((pre ++ post).filterMap (fun f => f.parsed.toOption))⟩ ∧
    (expected_individual g inputs.question nm fm
        ((pre ++ post).filterMap (fun f => f.parsed.toOption))).length
      = (pre ++ bad :: post).length - 1 := by
  have hsplit : (pre ++ bad :: post).filterMap (fun f => f.parsed.toOption)
      = (pre ++ post).filterMap (fun f => f.parsed.toOption) := by
    simp [List.filterMap_append, List.filterMap_cons, hbad, Except.toOption]
  have hload : load_personas d inputs.num_personas rand
      = .ok ((pre ++ post).filterMap (fun f => f.parsed.toOption)) := by
    simp only [load_personas, hsel, bind, Except.bind, foldl_load_step,
      List.nil_append, pure, Except.pure, hsplit]
  have hlen : ((pre ++ post).filterMap (fun f => f.parsed.toOption)).length
      = (pre ++ bad :: post).length - 1 := by
    rw [filterMap_toOption_length YamlFile.parsed _ hgood]
    simp [List.length_append]
  have hrun := run_ok_char g inputs d rand _ nm fm hload hname hfmt hnodupN
  refine ⟨hload, hlen, hrun, ?_⟩
  simp only [expected_individual, List.length_map]
  exact hlen

/-- Witness for C6: of three selected files the middle one is malformed;
two personas load and the run returns two-entry mappings. -/
theorem malformed_file_skipped_witness :
    load_personas threeDir 3 [0, 0, 0]
      = .ok (([fAlice] ++ [fBob]).filterMap (fun f => f.parsed.toOption)) ∧
    (([fAlice] ++ [fBob]).filterMap (fun f => f.parsed.toOption)).length
      = ([fAlice] ++ fBad :: [fBob]).length - 1 ∧
    run (pureClient gConst) ⟨"q", 3⟩ threeDir [0, 0, 0]
      = .ok ⟨expected_individual gConst "q" nameOf fmtOf
               (([fAlice] ++ [fBob]).filterMap (fun f => f.parsed.toOption)),
             expected_collective gConst "q" nameOf fmtOf
               (([fAlice] ++ [fBob]).filterMap (fun f => f.parsed.toOption))⟩ ∧
    (expected_individual gConst "q" nameOf fmtOf
        (([fAlice] ++ [fBob]).filterMap (fun f => f.parsed.toOption))).length
      = ([fAlice] ++ fBad :: [fBob]).length - 1 :=
  malformed_file_skipped gConst ⟨"q", 3⟩ threeDir [0, 0, 0] [fAlice] [fBob]
    fBad "could not parse" nameOf fmtOf rfl rfl
    (by intro f hf; fin_cases hf <;> rfl)
    (by intro p hp; fin_cases hp <;> rfl)
    (by intro p hp; fin_cases hp <;> rfl)
    (by decide)

/-- C9 (implicit): a selected file whose contents parse to a record without
a 'name' key is still appended to the loaded persona list — in the load
loop the append precedes the debug-log name lookup, and that lookup's
failure is caught by the same handler — so `load` can return records
missing required fields, and prompt formatting later fails on such a record
with exactly the name lookup's error. -/
theorem nameless_persona_loaded (d : PersonaDir) (n : Int) (rand : List Nat)
    (pre post : List YamlFile) (f : YamlFile) (v : YVal) (e : PyErr)
    (hsel : selected_files d n rand = .ok (pre ++ f :: post))
    (hparse : f.parsed = .ok v)
    (hname : dictGet v "name" = .error e) :
    load_personas d n rand
      = .ok ((pre ++ f :: post).filterMap (fun g2 => g2.parsed.toOption)) ∧
    v ∈ (pre ++ f :: post).filterMap (fun g2 => g2.parsed.toOption) ∧
    format_persona_for_prompt v = .error e := by
  refine ⟨?_, ?_, format_name_error v e hname⟩
  · simp only [load_personas, hsel, bind, Except.bind, foldl_load_step,
      List.nil_append, pure, Except.pure]
  · simp [List.filterMap_append, List.filterMap_cons, hparse, Except.toOption]

/-- Witness for C9: a directory whose single file parses to a mapping with
no 'name' key; the record is loaded anyway and formatting fails with
KeyError 'name'. -/
theorem nameless_persona_loaded_witness :
    load_personas ⟨true, [fNameless]⟩ 1 [0]
      = .ok (([] ++ fNameless :: []).filterMap
          (fun g2 : YamlFile => g2.parsed.toOption)) ∧
    pNameless ∈ ([] ++ fNameless :: []).filterMap
      (fun g2 : YamlFile => g2.parsed.toOption) ∧
    format_persona_for_prompt pNameless = .error (.keyError "name") :=
  nameless_persona_loaded ⟨true, [fNameless]⟩ 1 [0] [] [] fNameless pNameless
    (.keyError "name") rfl rfl rfl

/-- C8 counterexample: the formatter does NOT render each objective as its
own bulleted line.  For a persona with objectives ["o1", "o2"] the output
differs from the template that the specification's words describe (bullets
joined by newlines, `render_spec_bulleted`) and instead equals the template
with the bullets space-joined on one line (`render_template`). -/
theorem render_bulleted_line_cex :
    format_persona_for_prompt pTwoObjs
      ≠ .ok (render_spec_bulleted "N" "B" ["o1", "o2"] "R" ["T"]) ∧
    format_persona_for_prompt pTwoObjs
      = .ok (render_template "N" "B" ["o1", "o2"] "R" ["T"]) := by
  refine ⟨fun h => ?_, rfl⟩
  have h0 : format_persona_for_prompt pTwoObjs
      = .ok (render_template "N" "B" ["o1", "o2"] "R" ["T"]) := rfl
  rw [h0] at h
  exact absurd (Except.ok.inj h) (by decide)

/-- C8 (amended: objectives are rendered as "- "-prefixed fragments joined
by single spaces on one line, not one bulleted line each): the prompt
formatter is a deterministic pure function of the persona record — it is a
Lean function, so equal records yield equal strings by congruence — and for
every persona with all required fields present it returns the fixed
template concatenating name, background, objectives and role, with
trader-type tags comma-joined. -/
theorem render_fixed_template (p : YVal) (nme background role : String)
    (objectives traderTypes : List String)
    (h1 : dictGet p "name" = .ok (.s nme))
    (h2 : dictGet p "persona" = .ok (.s background))
    (h3 : dictGet p "objectives" = .ok (.list (objectives.map YVal.s)))
    (h4 : dictGet p "role" = .ok (.s role))
    (h5 : dictGet p "trader_type" = .ok (.list (traderTypes.map YVal.s))) :
    format_persona_for_prompt p
      = .ok (render_template nme background objectives role traderTypes) := by
  simp only [format_persona_for_prompt, h1, h2, h3, h4, h5, iterStrs,
    strList_map_s, bind, Except.bind, pure, Except.pure, pyStr,
    render_template]

/-- Witness for the amended C8 at a concrete well-formed persona. -/
theorem render_fixed_template_witness :
    format_persona_for_prompt pAlice
      = .ok (render_template "Alice" "Alice bg" ["obj one", "obj two"]
          "day trader" ["momentum", "contrarian"]) :=
  render_fixed_template pAlice "Alice" "Alice bg" "day trader"
    ["obj one", "obj two"] ["momentum", "contrarian"] rfl rfl rfl rfl rfl

/-- C1 counterexample: two personas load successfully (N = 2) and every
completion call succeeds, yet both response mappings contain a single entry
— not two — because the personas share the name "Dup" and the second dict
insertion overwrites the first in both rounds.  (The key sets are still
identical.) -/
theorem run_sizes_cex :
    load_personas dupDir 2 [0, 0] = .ok [pDup1, pDup2] ∧
    run (pureClient gConst) ⟨"q", 2⟩ dupDir [0, 0]
      = .ok ⟨[("Dup", "resp")], [("Dup", "resp")]⟩ ∧
    ([("Dup", "resp")] : List (String × String)).length
      ≠ ([pDup1, pDup2] : List YVal).length :=
  ⟨rfl, rfl, by decide⟩

/-- C1 (amended: the loaded personas must additionally bear pairwise-distinct
names; with a duplicated name both mappings lose an entry, see
`run_sizes_cex`): for every run in which N personas load successfully, every
persona carries a string name and formats, every completion call succeeds,
and the names are pairwise distinct, the run returns a result whose
individual and collective mappings each contain exactly N entries and have
identical key lists — in particular every key of the collective mapping is
a key of the individual mapping. -/
theorem run_response_maps_sizes (g : CompletionRequest → String)
    (inputs : InputSchema) (d : PersonaDir) (rand : List Nat)
    (personas : List YVal) (nm fm : YVal → String)
    (hload : load_personas d inputs.num_personas rand = .ok personas)
    (hname : ∀ p ∈ personas, dictGet p "name" = .ok (.s (nm p)))
    (hfmt : ∀ p ∈ personas, format_persona_for_prompt p = .ok (fm p))
    (hnodup : (personas.map nm).Nodup) :
    run (pureClient g) inputs d rand
      = .ok ⟨expected_individual g inputs.question nm fm personas,
             expected_collective g inputs.question nm fm personas⟩ ∧
    (expected_individual g inputs.question nm fm personas).length
      = personas.length ∧
    (expected_collective g inputs.question nm fm personas).length
      = personas.length ∧
    (expected_collective g inputs.question nm fm personas).map Prod.fst
      = (expected_individual g inputs.question nm fm personas).map Prod.fst := by
  refine ⟨run_ok_char g inputs d rand personas nm fm hload hname hfmt hnodup,
    ?_, ?_, ?_⟩
  · simp [expected_individual]
  · simp [expected_collective]
  · simp [expected_collective, expected_individual]

/-- Witness for the amended C1: two distinctly-named personas, an
always-succeeding client; both mappings have two entries and equal keys. -/
theorem run_response_maps_sizes_witness :
    run (pureClient gConst) ⟨"q", 2⟩ twoDir [0, 0]
      = .ok ⟨expected_individual gConst "q" nameOf fmtOf [pAlice, pBob],
             expected_collective gConst "q" nameOf fmtOf [pAlice, pBob]⟩ ∧
    (expected_individual gConst "q" nameOf fmtOf [pAlice, pBob]).length
      = ([pAlice, pBob] : List YVal).length ∧
    (expected_collective gConst "q" nameOf fmtOf [pAlice, pBob]).length
      = ([pAlice, pBob] : List YVal).length ∧
    (expected_collective gConst "q" nameOf fmtOf [pAlice, pBob]).map Prod.fst
      = (expected_individual gConst "q" nameOf fmtOf [pAlice, pBob]).map
          Prod.fst :=
  run_response_maps_sizes gConst ⟨"q", 2⟩ twoDir [0, 0] [pAlice, pBob]
    nameOf fmtOf rfl
    (by intro p hp; fin_cases hp <;> rfl)
    (by intro p hp; fin_cases hp <;> rfl)
    (by decide)

/-- C2 counterexample: two personas load, but because they share the name
"Dup", the peer context computed for the first persona from the actual
independent-phase dict is EMPTY — the other loaded persona's independent
response is not included (its dict entry was overwritten and then filtered
out by name). -/
theorem collective_peer_context_cex :
    load_personas dupDir 2 [0, 0] = .ok [pDup1, pDup2] ∧
    individual_phase (pureClient gConst) "q" [pDup1, pDup2] []
      = .ok [("Dup", "resp")] ∧
    other_responses [("Dup", "resp")] pDup1 = .ok [] ∧
    (([] : List String).length ≠ ([pDup1, pDup2] : List YVal).length - 1) :=
  ⟨rfl, rfl, rfl, by decide⟩

/-- C2 (amended: the loaded personas must bear pairwise-distinct names, see
`collective_peer_context_cex`): for every loaded persona p, the peer-context
list computed from the actual independent-phase dict and passed to p's
collective-phase completion is exactly the independent responses of the
other-named personas in load order — p's own response is excluded and every
other persona's response is included exactly once (the list has N-1
entries, one per other persona). -/
theorem collective_peer_context (g : CompletionRequest → String)
    (question : String) (personas : List YVal) (nm fm : YVal → String)
    (hname : ∀ p ∈ personas, dictGet p "name" = .ok (.s (nm p)))
    (hfmt : ∀ p ∈ personas, format_persona_for_prompt p = .ok (fm p))
    (hnodup : (personas.map nm).Nodup) (p : YVal) (hp : p ∈ personas) :
    individual_phase (pureClient g) question personas []
      = .ok (expected_individual g question nm fm personas) ∧
    other_responses (expected_individual g question nm fm personas) p
      = .ok (expected_others g question nm fm personas p) ∧
    expected_others g question nm fm personas p
      = (personas.filter (fun q => !(nm p == nm q))).map
          (fun q => g (ind_req question (fm q))) ∧
    (expected_others g question nm fm personas p).length
      = personas.length - 1 := by
  have hph := individual_phase_ok g question nm fm personas [] hname hfmt
  have hfold : personas.foldl
      (fun d q => dictInsert d (nm q) (g (ind_req question (fm q)))) []
      = expected_individual g question nm fm personas := by
    rw [foldl_dictInsert_fresh nm (fun q => g (ind_req question (fm q)))
      personas [] (by intro a _ kv hkv; cases hkv) hnodup]
    rfl
  rw [hfold] at hph
  refine ⟨hph, other_responses_expected g question nm fm personas p
    (hname p hp), rfl, ?_⟩
  simp only [expected_others, List.length_map]
  exact filter_ne_length nm personas p hnodup hp

/-- Witness for the amended C2: with personas Alice and Bob, the peer
context for Alice is exactly Bob's independent response. -/
theorem collective_peer_context_witness :
    individual_phase (pureClient gConst) "q" [pAlice, pBob] []
      = .ok (expected_individual gConst "q" nameOf fmtOf [pAlice, pBob]) ∧
    other_responses (expected_individual gConst "q" nameOf fmtOf
        [pAlice, pBob]) pAlice
      = .ok (expected_others gConst "q" nameOf fmtOf [pAlice, pBob] pAlice) ∧
    expected_others gConst "q" nameOf fmtOf [pAlice, pBob] pAlice
      = (([pAlice, pBob] : List YVal).filter
          (fun q => !(nameOf pAlice == nameOf q))).map
          (fun q => gConst (ind_req "q" (fmtOf q))) ∧
    (expected_others gConst "q" nameOf fmtOf [pAlice, pBob] pAlice).length
      = ([pAlice, pBob] : List YVal).length - 1 :=
  collective_peer_context gConst "q" [pAlice, pBob] nameOf fmtOf
    (by intro p hp; fin_cases hp <;> rfl)
    (by intro p hp; fin_cases hp <;> rfl)
    (by decide)
    pAlice (List.mem_cons_self _ _)

end TestPersonas
